import Mathlib

/-!
Shallow embedding of the csrest client core (client.go, tasks.go, types.go):
the transport executor `doRequestOnce`, the retry coordinator `doRequest`,
and the completion poller `WaitForTaskCompletion`, together with theorems
checking the specification's claims about them.

Modelling conventions:
- the HTTP stack (body marshalling, request construction, the network send,
  body read, result decode) is an oracle `TransportEnv` supplying the outcome
  of each fallible step of `doRequestOnce`, so the Lean function mirrors the
  Go control flow over those outcomes;
- `context.Context` cancellation is an oracle telling, for each checkpoint
  the Go code actually consults, whether the context has fired there;
- time is discrete: the poller's ticker fires at 2-unit boundaries, matching
  the hardcoded 2-second ticker, and elapsed time is reported at the tick
  boundary where the poller returns.
-/

namespace CsRest

/-- APIError from types.go: HTTP status code, human-readable message, and
the retryable flag. `Error()` returns the message. -/
structure APIError where
  statusCode : Nat
  message : String
  retryable : Bool
  deriving DecidableEq

/-- Oracle for the fallible steps of a single `doRequestOnce` call.
`marshal` is consulted only when a body is present; `status` and `readBody`
only when `send` succeeded; `unmarshal` only on a success status with a
result target and a non-empty body. An `Except.error` carries the message
text that Go would interpolate into the APIError. -/
structure TransportEnv where
  bodyPresent : Bool
  marshal : Except String String
  newRequest : Except String Unit
  send : Except String Unit
  status : Nat
  readBody : Except String String
  resultExpected : Bool
  unmarshal : Except String Unit

/-- Outcome of one `doRequestOnce` call: the returned error (`none` = nil,
i.e. success) and whether the Authorization header was set on the request. -/
structure OnceOutcome where
  result : Option APIError
  authAttached : Bool

/-- Transport executor, client.go `doRequestOnce` (lines 97-171).
`statusText` models Go's `http.StatusText` reason-phrase table, which lives
in the standard library, so it is a parameter here. Every error return path
of the Go function constructs an `*APIError`; the classification of a
non-2xx response (lines 147-158) marks it retryable iff status >= 500 or
status == 429, with the raw body as message, or a synthesized
`HTTP <code>: <reason>` line when the body is empty. -/
def doRequestOnce (statusText : Nat → String) (token : String) (requireAuth : Bool)
    (env : TransportEnv) : OnceOutcome :=
  match env.bodyPresent, env.marshal with
  | true, .error m =>
      ⟨some ⟨0, "failed to marshal request: " ++ m, false⟩, false⟩
  | _, _ =>
      match env.newRequest with
      | .error m => ⟨some ⟨0, "failed to create request: " ++ m, false⟩, false⟩
      | .ok _ =>
          let auth := requireAuth && token != ""
          match env.send with
          | .error m => ⟨some ⟨0, "request failed: " ++ m, true⟩, auth⟩
          | .ok _ =>
              match env.readBody with
              | .error m =>
                  ⟨some ⟨env.status, "failed to read response: " ++ m, true⟩, auth⟩
              | .ok respBody =>
                  if env.status < 200 ∨ 300 ≤ env.status then
                    ⟨some ⟨env.status,
                        if respBody = "" then
                          "HTTP " ++ toString env.status ++ ": " ++ statusText env.status
                        else respBody,
                        decide (500 ≤ env.status) || (env.status == 429)⟩, auth⟩
                  else if env.resultExpected && respBody != "" then
                    match env.unmarshal with
                    | .error m =>
                        ⟨some ⟨env.status, "failed to unmarshal response: " ++ m, false⟩, auth⟩
                    | .ok _ => ⟨none, auth⟩
                  else ⟨none, auth⟩

/-- client.go `isNonRetryableError` (lines 174-179), restricted to the
`*APIError` case: every error `doRequestOnce` returns is an `*APIError`,
so the type-assertion failure branch (returning false) is unreachable
inside `doRequest`. -/
def isNonRetryableError (e : APIError) : Bool := !e.retryable

/-- Error outcomes of the retry coordinator `doRequest`: a classified
`APIError` returned as-is, the context's cancellation error (`ctx.Err()`),
or the exhaustion wrapper `request failed after <attempts> attempts: <last>`
with the reported attempt count and the wrapped last error (`none` models
wrapping a nil error). -/
inductive ReqError where
  | api (e : APIError)
  | cancelled
  | failedAfter (attempts : Int) (last : Option APIError)
  deriving DecidableEq

/-- Oracle for one run of the retry loop: the error (or nil) produced by
attempt k, whether the context fires during the inter-attempt wait before
attempt k, and whether `ctx.Err() != nil` at the check following attempt k. -/
structure RetryEnv where
  attemptResult : Nat → Option APIError
  cancelInWait : Nat → Bool
  cancelledAfter : Nat → Bool

/-- Observable outcome of a `doRequest` run: the returned value, the number
of `doRequestOnce` invocations performed, and the number of inter-attempt
delays completed. -/
structure RunResult where
  result : Except ReqError Unit
  attempts : Nat
  delays : Nat

/-- One unrolling of the retry loop of client.go `doRequest` (lines 63-94).
`fuel` is the number of loop iterations remaining (`maxRetries + 1 - attempt`
in the Go loop); `attempt` the current attempt index; `a` and `d` the
attempts and delays performed so far. Running out of fuel is exactly the
loop condition `attempt <= c.maxRetries` failing, which returns the
exhaustion wrapper over the last error. -/
def doRequestAux (env : RetryEnv) (maxRetries : Int) :
    Nat → Nat → Option APIError → Nat → Nat → RunResult
  | 0, _, lastErr, a, d => ⟨.error (.failedAfter (maxRetries + 1) lastErr), a, d⟩
  | fuel + 1, attempt, _lastErr, a, d =>
      if 0 < attempt ∧ env.cancelInWait attempt = true then
        ⟨.error .cancelled, a, d⟩
      else
        let d1 := if 0 < attempt then d + 1 else d
        match env.attemptResult attempt with
        | none => ⟨.ok (), a + 1, d1⟩
        | some e =>
            if isNonRetryableError e then ⟨.error (.api e), a + 1, d1⟩
            else if env.cancelledAfter attempt then ⟨.error .cancelled, a + 1, d1⟩
            else doRequestAux env maxRetries fuel (attempt + 1) (some e) (a + 1) d1

/-- Retry coordinator, client.go `doRequest` (lines 63-94): run the loop
from attempt 0 with `maxRetries + 1` iterations available (none when
`maxRetries` is negative, since `0 <= attempt` already fails the loop
condition). -/
def doRequest (env : RetryEnv) (maxRetries : Int) : RunResult :=
  doRequestAux env maxRetries (maxRetries + 1).toNat 0 none 0 0

/-- The retry environment whose attempt outcomes are produced by the
transport executor on a per-attempt transport oracle: this is how
`doRequest` actually invokes `doRequestOnce` in client.go line 75. -/
def retryEnvOf (statusText : Nat → String) (token : String) (requireAuth : Bool)
    (tenvs : Nat → TransportEnv) (cw ca : Nat → Bool) : RetryEnv :=
  ⟨fun k => (doRequestOnce statusText token requireAuth (tenvs k)).result, cw, ca⟩

/-- Client session state from client.go (lines 14-20): the bearer token and
the retry configuration. The base URL and http.Client are opaque to the
claims and omitted; `retryDelay` is kept in abstract time units. -/
structure Client where
  token : String
  maxRetries : Int
  retryDelay : Nat

/-- client.go `NewClient` (lines 23-32) retry-relevant defaults:
maxRetries 3, retryDelay 2 units (seconds). Token starts unset. -/
def NewClient : Client := ⟨"", 3, 2⟩

/-- client.go `SetRetryPolicy` (lines 40-43). -/
def SetRetryPolicy (c : Client) (maxRetries : Int) (retryDelay : Nat) : Client :=
  { c with maxRetries := maxRetries, retryDelay := retryDelay }

/-- AuthDto from types.go, restricted to the field `Login` reads. -/
structure AuthDto where
  accessToken : String

/-- The state update of client.go `Login` line 58 on success:
`c.token = auth.AccessToken`. -/
def loginSetToken (c : Client) (auth : AuthDto) : Client :=
  { c with token := auth.accessToken }

/-- Task status strings from types.go (lines 42-48). -/
def TaskStatusNotFound : String := "NOT_FOUND"

/-- Task status IN_PROGRESS from types.go. -/
def TaskStatusInProgress : String := "IN_PROGRESS"

/-- Task status COMPLETED from types.go. -/
def TaskStatusCompleted : String := "COMPLETED"

/-- Task status FAILED from types.go. -/
def TaskStatusFailed : String := "FAILED"

/-- Task status OUTPUT_RECEIVED from types.go. -/
def TaskStatusOutputReceived : String := "OUTPUT_RECEIVED"

/-- Task snapshot, the fields of TaskDetailDto that the poller reads
(taskId and taskCommand are printed, taskStatus drives the loop); the
status is a string as in Go, not a closed enum. -/
structure TaskDetailDto where
  taskId : String
  taskCommand : String
  taskStatus : String
  deriving DecidableEq

/-- The terminal-status test of tasks.go lines 71-73: status is COMPLETED,
OUTPUT_RECEIVED or FAILED. -/
def isTerminalTaskStatus (s : String) : Bool :=
  (s == TaskStatusCompleted) || (s == TaskStatusOutputReceived) || (s == TaskStatusFailed)

/-- Result of a `WaitForTaskCompletion` run: cancellation, the timeout
error, a propagated `GetTask` failure (carrying the wrapped cause), or the
terminal snapshot. -/
inductive PollResult where
  | cancelled
  | timedOut
  | fetchFailed (e : ReqError)
  | finished (t : TaskDetailDto)
  deriving DecidableEq

/-- Oracle for one poller run: the `GetTask` outcome observed at tick n
(n = 1, 2, ...) and whether the context has fired by the wait for tick n. -/
structure PollEnv where
  fetch : Nat → Except ReqError TaskDetailDto
  cancelled : Nat → Bool

/-- One tick of the poll loop of tasks.go `WaitForTaskCompletion`
(lines 54-77). Tick n occurs at time `2 * n` (the ticker is hardcoded to
2 units). In source order: the select observes cancellation or the tick;
on a tick, the deadline `time.Now().After(deadline)` is checked first
(`2 * n > timeout`), then the fetch runs, then the terminal-status test.
`fuel` bounds the remaining ticks; `none` means fuel ran out before the
loop returned (the semantics lemmas show the top-level fuel suffices).
The second component of the pair is the elapsed time at return. -/
def waitAux (env : PollEnv) (timeout : Nat) : Nat → Nat → Option (PollResult × Nat)
  | 0, _ => none
  | fuel + 1, n =>
      if env.cancelled n then some (.cancelled, 2 * n)
      else if timeout < 2 * n then some (.timedOut, 2 * n)
      else
        match env.fetch n with
        | .error e => some (.fetchFailed e, 2 * n)
        | .ok t =>
            if isTerminalTaskStatus t.taskStatus then some (.finished t, 2 * n)
            else waitAux env timeout fuel (n + 1)

/-- Completion poller, tasks.go `WaitForTaskCompletion` (lines 49-78):
deadline = start + timeout, ticks at 2-unit boundaries starting from tick 1.
The fuel `timeout / 2 + 2` covers every tick up to and including the first
tick past the deadline, at which the loop necessarily returns. -/
def WaitForTaskCompletion (env : PollEnv) (timeout : Nat) : Option (PollResult × Nat) :=
  waitAux env timeout (timeout / 2 + 2) 1

/-- Concrete transport oracle: request built and sent fine, server answers
500 with an empty body. -/
def tenv500Empty : TransportEnv :=
  ⟨false, .ok "", .ok (), .ok (), 500, .ok "", true, .ok ()⟩

/-- Concrete transport oracle: request built and sent fine, server answers
200 with a decodable body. -/
def tenv200Ok : TransportEnv :=
  ⟨true, .ok "payload", .ok (), .ok (), 200, .ok "body", true, .ok ()⟩

/-- A concrete reason-phrase table entry for the witness runs. -/
def sampleStatusText : Nat → String := fun s =>
  if s = 500 then "Internal Server Error" else ""

/-- A concrete retryable server failure used in concrete runs. -/
def retryableErr : APIError := ⟨500, "internal error", true⟩

/-- A concrete non-retryable client failure used in concrete runs. -/
def nonRetryableErr : APIError := ⟨404, "missing", false⟩

/-- Concrete run: one retryable failure, then success; no cancellation. -/
def envOneFailThenOk : RetryEnv :=
  ⟨fun k => if k = 0 then some retryableErr else none, fun _ => false, fun _ => false⟩

/-- Concrete run: every attempt fails retryably; no cancellation. -/
def envAllFail : RetryEnv :=
  ⟨fun _ => some retryableErr, fun _ => false, fun _ => false⟩

/-- Concrete run: every attempt fails non-retryably; no cancellation. -/
def envNonRetryableFirst : RetryEnv :=
  ⟨fun _ => some nonRetryableErr, fun _ => false, fun _ => false⟩

/-- Concrete run: attempt 0 fails retryably and the context fires during
the wait before attempt 1. -/
def envCancelInWait1 : RetryEnv :=
  ⟨fun k => if k = 0 then some retryableErr else none, fun k => k == 1, fun _ => false⟩

/-- Concrete poll run: the fetch sequence is IN_PROGRESS, IN_PROGRESS,
then COMPLETED from the third tick on; no cancellation. -/
def pollScenarioEnv : PollEnv :=
  ⟨fun n => if n < 3 then .ok ⟨"t1", "shell whoami", TaskStatusInProgress⟩
    else .ok ⟨"t1", "shell whoami", TaskStatusCompleted⟩, fun _ => false⟩

/-- Concrete poll run: every fetch returns IN_PROGRESS; no cancellation. -/
def pollNeverDoneEnv : PollEnv :=
  ⟨fun _ => .ok ⟨"t1", "shell whoami", TaskStatusInProgress⟩, fun _ => false⟩

/-- Helper: running the retry loop through k consecutive retryable failures,
with no cancellation observed at any checkpoint the loop consults along the
way, advances the loop k iterations: k further attempts are performed, the
k-th failure becomes the recorded last error, and one delay completes per
iteration whose attempt index is positive. -/
theorem doRequestAux_reach (env : RetryEnv) (maxRetries : Int) :
    ∀ (k : Nat) (es : Nat → APIError) (fuel attempt a d : Nat) (lastErr : Option APIError),
      (∀ j, j < k → env.attemptResult (attempt + j) = some (es j) ∧ (es j).retryable = true) →
      (∀ j, j < k → 1 ≤ attempt + j → env.cancelInWait (attempt + j) = false) →
      (∀ j, j < k → env.cancelledAfter (attempt + j) = false) →
      k ≤ fuel →
      doRequestAux env maxRetries fuel attempt lastErr a d =
        doRequestAux env maxRetries (fuel - k) (attempt + k)
          (if k = 0 then lastErr else some (es (k - 1))) (a + k)
          (d + if attempt = 0 then k - 1 else k) := by
  intro k
  induction k with
  | zero =>
      intro es fuel attempt a d lastErr _ _ _ _
      simp
  | succ k ih =>
      intro es fuel attempt a d lastErr hfail hw hc hfuel
      obtain ⟨f, rfl⟩ : ∃ f, fuel = f + 1 := ⟨fuel - 1, by omega⟩
      have h0 := hfail 0 (by omega)
      rw [Nat.add_zero] at h0
      have hcond : ¬(0 < attempt ∧ env.cancelInWait attempt = true) := by
        rintro ⟨h1, h2⟩
        have hx := hw 0 (by omega) (by omega)
        rw [Nat.add_zero] at hx
        rw [hx] at h2
        exact Bool.false_ne_true h2
      have hca : env.cancelledAfter attempt = false := by
        have hx := hc 0 (by omega)
        rwa [Nat.add_zero] at hx
      have hnr : isNonRetryableError (es 0) = false := by
        simp [isNonRetryableError, h0.2]
      have h1 : ∀ j, j < k →
          env.attemptResult (attempt + 1 + j) = some (es (j + 1)) ∧ (es (j + 1)).retryable = true := by
        intro j hj
        have hx := hfail (j + 1) (by omega)
        have he : attempt + (j + 1) = attempt + 1 + j := by omega
        rwa [he] at hx
      have h2 : ∀ j, j < k → 1 ≤ attempt + 1 + j → env.cancelInWait (attempt + 1 + j) = false := by
        intro j hj _
        have hx := hw (j + 1) (by omega) (by omega)
        have he : attempt + (j + 1) = attempt + 1 + j := by omega
        rwa [he] at hx
      have h3 : ∀ j, j < k → env.cancelledAfter (attempt + 1 + j) = false := by
        intro j hj
        have hx := hc (j + 1) (by omega)
        have he : attempt + (j + 1) = attempt + 1 + j := by omega
        rwa [he] at hx
      have h4 : k ≤ f := by omega
      simp only [doRequestAux, hcond, if_false, h0.1, hnr, hca, Bool.false_eq_true,
        ite_false]
      rw [ih (fun j => es (j + 1)) f (attempt + 1) (a + 1)
            (if 0 < attempt then d + 1 else d) (some (es 0)) h1 h2 h3 h4]
      have e1 : f - k = f + 1 - (k + 1) := by omega
      have e2 : attempt + 1 + k = attempt + (k + 1) := by omega
      have e3 : a + 1 + k = a + (k + 1) := by omega
      have e4 : (if k = 0 then some (es 0) else some (es (k - 1 + 1))) =
          some (es (k + 1 - 1)) := by
        cases k <;> simp
      have e5 : (if 0 < attempt then d + 1 else d) + (if attempt + 1 = 0 then k - 1 else k) =
          d + (if attempt = 0 then k + 1 - 1 else k + 1) := by
        cases attempt
        · simp
        · simp
          omega
      rw [e1, e2, e3, e4, e5]
      simp

/-- C2: for every N in [0, max_retries], if the transport executor fails
with a retryable error on each of the first N attempts and succeeds on
attempt N+1 with no cancellation, the retry coordinator performs exactly
N+1 attempts, completes the fixed retry delay before every attempt after
the first (N delays), and returns the success. -/
theorem doRequest_retryable_failures_then_success
    (env : RetryEnv) (maxRetries : Int) (N : Nat) (es : Nat → APIError)
    (hfail : ∀ j, j < N → env.attemptResult j = some (es j) ∧ (es j).retryable = true)
    (hsucc : env.attemptResult N = none)
    (hw : ∀ j, env.cancelInWait j = false)
    (hc : ∀ j, env.cancelledAfter j = false)
    (hN : (N : Int) ≤ maxRetries) :
    doRequest env maxRetries = ⟨.ok (), N + 1, N⟩ := by
  unfold doRequest
  rw [doRequestAux_reach env maxRetries N es ((maxRetries + 1).toNat) 0 0 0 none
        (by intro j hj; rw [Nat.zero_add]; exact hfail j hj)
        (by intro j hj hj1; rw [Nat.zero_add]; exact hw j)
        (by intro j hj; rw [Nat.zero_add]; exact hc j)
        (by omega)]
  obtain ⟨f, hf⟩ : ∃ f, (maxRetries + 1).toNat - N = f + 1 :=
    ⟨(maxRetries + 1).toNat - N - 1, by omega⟩
  rw [hf]
  simp only [Nat.zero_add]
  simp only [doRequestAux, hw N, hsucc, Bool.false_eq_true, and_false, if_false]
  cases N with
  | zero => simp
  | succ n => simp

/-- Witness for C2 at a concrete input: one retryable failure then success
under the default policy gives 2 attempts, 1 delay, and the success. -/
theorem doRequest_retryable_failures_then_success_witness :
    doRequest envOneFailThenOk 3 = ⟨.ok (), 2, 1⟩ :=
  doRequest_retryable_failures_then_success envOneFailThenOk 3 1 (fun _ => retryableErr)
    (by intro j hj
        have hj0 : j = 0 := by omega
        subst hj0
        exact ⟨rfl, rfl⟩)
    rfl (fun _ => rfl) (fun _ => rfl) (by norm_num)

/-- C3: cancellation observed at a checkpoint of the retry coordinator is
surfaced immediately. If the context fires during the inter-attempt wait
before attempt k, the coordinator stops with the cancellation outcome,
performing no further attempt and not finishing the wait; if attempt k
fails retryably and the context has fired by the post-attempt check, the
cancellation outcome is surfaced instead of the attempt's classified error. -/
theorem doRequest_cancellation_precedence
    (env : RetryEnv) (maxRetries : Int) (k : Nat) (es : Nat → APIError)
    (hfail : ∀ j, j < k → env.attemptResult j = some (es j) ∧ (es j).retryable = true)
    (hw : ∀ j, 1 ≤ j → j < k → env.cancelInWait j = false)
    (hc : ∀ j, j < k → env.cancelledAfter j = false)
    (hk : (k : Int) ≤ maxRetries) :
    (1 ≤ k → env.cancelInWait k = true →
        doRequest env maxRetries = ⟨.error .cancelled, k, k - 1⟩) ∧
    (∀ e, env.cancelInWait k = false → env.attemptResult k = some e →
        e.retryable = true → env.cancelledAfter k = true →
        doRequest env maxRetries = ⟨.error .cancelled, k + 1, k⟩) := by
  have hreach : doRequest env maxRetries =
      doRequestAux env maxRetries ((maxRetries + 1).toNat - k) k
        (if k = 0 then none else some (es (k - 1))) k (k - 1) := by
    unfold doRequest
    rw [doRequestAux_reach env maxRetries k es ((maxRetries + 1).toNat) 0 0 0 none
          (by intro j hj; rw [Nat.zero_add]; exact hfail j hj)
          (by intro j hj hj1; rw [Nat.zero_add] at hj1 ⊢; exact hw j hj1 hj)
          (by intro j hj; rw [Nat.zero_add]; exact hc j hj)
          (by omega)]
    simp only [Nat.zero_add]
    simp
  obtain ⟨f, hf⟩ : ∃ f, (maxRetries + 1).toNat - k = f + 1 :=
    ⟨(maxRetries + 1).toNat - k - 1, by omega⟩
  rw [hf] at hreach
  constructor
  · intro h1 h2
    have h0 : 0 < k := h1
    rw [hreach]
    simp [doRequestAux, h0, h2]
  · intro e hcw hres hretry hca
    rw [hreach]
    simp only [doRequestAux, hcw, Bool.false_eq_true, and_false, if_false, hres,
      isNonRetryableError, hretry, Bool.not_true, hca, if_true]
    rcases Nat.eq_zero_or_pos k with hk0 | hk0
    · subst hk0
      simp
    · simp [hk0]
      omega

/-- Witness for C3 at a concrete input: after one retryable failure, the
context fires during the wait before attempt 1; the run stops with the
cancellation outcome after exactly 1 attempt and 0 completed delays. -/
theorem doRequest_cancellation_precedence_witness :
    doRequest envCancelInWait1 3 = ⟨.error .cancelled, 1, 0⟩ :=
  (doRequest_cancellation_precedence envCancelInWait1 3 1 (fun _ => retryableErr)
    (by intro j hj
        have hj0 : j = 0 := by omega
        subst hj0
        exact ⟨rfl, rfl⟩)
    (by intro j hj1 hj; omega)
    (by intro j hj; rfl)
    (by norm_num)).1 (le_refl 1) rfl

/-- C6: if all max_retries + 1 attempts fail with retryable errors and
cancellation never fires, the retry coordinator returns the exhaustion
wrapper reporting max_retries + 1 attempts and carrying the last attempt's
failure as its wrapped cause. -/
theorem doRequest_exhaustion (env : RetryEnv) (maxRetries : Int) (es : Nat → APIError)
    (h0 : 0 ≤ maxRetries)
    (hfail : ∀ j, j < (maxRetries + 1).toNat →
        env.attemptResult j = some (es j) ∧ (es j).retryable = true)
    (hw : ∀ j, env.cancelInWait j = false)
    (hc : ∀ j, env.cancelledAfter j = false) :
    doRequest env maxRetries =
      ⟨.error (.failedAfter (maxRetries + 1) (some (es maxRetries.toNat))),
        (maxRetries + 1).toNat, maxRetries.toNat⟩ := by
  unfold doRequest
  rw [doRequestAux_reach env maxRetries ((maxRetries + 1).toNat) es ((maxRetries + 1).toNat)
        0 0 0 none
        (by intro j hj; rw [Nat.zero_add]; exact hfail j hj)
        (by intro j hj hj1; rw [Nat.zero_add]; exact hw j)
        (by intro j hj; rw [Nat.zero_add]; exact hc j)
        (le_refl _)]
  have hn : (maxRetries + 1).toNat ≠ 0 := by omega
  have hidx : (maxRetries + 1).toNat - 1 = maxRetries.toNat := by omega
  rw [Nat.sub_self]
  simp only [Nat.zero_add, doRequestAux]
  simp [hn, hidx]

/-- Witness for C6 at a concrete input: with the default policy (3 retries)
and every attempt failing retryably, the run makes 4 attempts, 3 delays,
and returns the exhaustion wrapper over the last failure. -/
theorem doRequest_exhaustion_witness :
    doRequest envAllFail 3 = ⟨.error (.failedAfter 4 (some retryableErr)), 4, 3⟩ := by
  have h := doRequest_exhaustion envAllFail 3 (fun _ => retryableErr) (by norm_num)
    (by intro j hj; exact ⟨rfl, rfl⟩) (fun _ => rfl) (fun _ => rfl)
  simpa using h

/-- C7: a non-retryable failure on the first attempt makes the retry
coordinator stop after exactly 1 attempt and return that classified error
unchanged, with no delay completed and no wrapping. -/
theorem doRequest_nonretryable_first (env : RetryEnv) (maxRetries : Int) (e : APIError)
    (h0 : 0 ≤ maxRetries)
    (hfirst : env.attemptResult 0 = some e)
    (hnr : e.retryable = false) :
    doRequest env maxRetries = ⟨.error (.api e), 1, 0⟩ := by
  unfold doRequest
  obtain ⟨f, hf⟩ : ∃ f, (maxRetries + 1).toNat = f + 1 :=
    ⟨(maxRetries + 1).toNat - 1, by omega⟩
  rw [hf]
  simp [doRequestAux, hfirst, isNonRetryableError, hnr]

/-- Witness for C7 at a concrete input: a 404 on the first attempt under
the default policy returns that error after exactly 1 attempt, no delay. -/
theorem doRequest_nonretryable_first_witness :
    doRequest envNonRetryableFirst 3 = ⟨.error (.api nonRetryableErr), 1, 0⟩ :=
  doRequest_nonretryable_first envNonRetryableFirst 3 nonRetryableErr (by norm_num) rfl rfl

/-- C10: with a negative maximum-retry count installed via SetRetryPolicy,
the retry loop body never runs: zero attempts, zero delays, and the
exhaustion wrapper is returned with a nil wrapped cause. -/
theorem doRequest_negative_max_retries (c : Client) (retryDelay : Nat) (m : Int)
    (env : RetryEnv) (hm : m < 0) :
    doRequest env (SetRetryPolicy c m retryDelay).maxRetries =
      ⟨.error (.failedAfter (m + 1) none), 0, 0⟩ := by
  have hmr : (SetRetryPolicy c m retryDelay).maxRetries = m := rfl
  rw [hmr]
  unfold doRequest
  have h2 : (m + 1).toNat = 0 := by omega
  rw [h2]
  simp [doRequestAux]

/-- C1: a single attempt whose HTTP response arrives with a status outside
the range 200..299 and whose body is read successfully yields a classified
APIError carrying that status, retryable iff status >= 500 or status = 429,
whose message is the raw body text, or the synthesized
`HTTP <code>: <reason>` line when the body is empty. -/
theorem doRequestOnce_error_status
    (statusText : Nat → String) (token : String) (requireAuth : Bool)
    (env : TransportEnv) (respBody : String)
    (hm : env.bodyPresent = false ∨ ∃ d, env.marshal = .ok d)
    (hr : env.newRequest = .ok ())
    (hs : env.send = .ok ())
    (hb : env.readBody = .ok respBody)
    (hstat : env.status < 200 ∨ 300 ≤ env.status) :
    ∃ e : APIError,
      (doRequestOnce statusText token requireAuth env).result = some e ∧
      e.statusCode = env.status ∧
      (e.retryable = true ↔ (500 ≤ env.status ∨ env.status = 429)) ∧
      e.message = (if respBody = "" then
          "HTTP " ++ toString env.status ++ ": " ++ statusText env.status
        else respBody) := by
  refine ⟨⟨env.status,
      (if respBody = "" then "HTTP " ++ toString env.status ++ ": " ++ statusText env.status
        else respBody),
      decide (500 ≤ env.status) || (env.status == 429)⟩, ?_, rfl, ?_, rfl⟩
  · cases hbp : env.bodyPresent
    · cases hms : env.marshal
      · simp [doRequestOnce, hbp, hms, hr, hs, hb, hstat]
      · simp [doRequestOnce, hbp, hms, hr, hs, hb, hstat]
    · obtain ⟨d, hms⟩ : ∃ d, env.marshal = .ok d := by
        rcases hm with h | h
        · rw [hbp] at h
          cases h
        · exact h
      simp [doRequestOnce, hbp, hms, hr, hs, hb, hstat]
  · simp [Bool.or_eq_true, decide_eq_true_eq, beq_iff_eq]

/-- Witness for C1 at a concrete input: a 500 response with an empty body
is classified as status 500, retryable, with the synthesized message. -/
theorem doRequestOnce_error_status_witness :
    ∃ e : APIError,
      (doRequestOnce sampleStatusText "" false tenv500Empty).result = some e ∧
      e.statusCode = tenv500Empty.status ∧
      (e.retryable = true ↔ (500 ≤ tenv500Empty.status ∨ tenv500Empty.status = 429)) ∧
      e.message = (if "" = "" then
          "HTTP " ++ toString tenv500Empty.status ++ ": " ++ sampleStatusText tenv500Empty.status
        else "") :=
  doRequestOnce_error_status sampleStatusText "" false tenv500Empty ""
    (Or.inl rfl) rfl rfl rfl (Or.inr (by decide))

/-- Helper for C8: when the request gets built (marshalling and request
construction succeed), the Authorization header is attached exactly when
`requireAuth && token != ""`, the condition of client.go line 124. -/
theorem doRequestOnce_authAttached
    (statusText : Nat → String) (token : String) (requireAuth : Bool)
    (env : TransportEnv)
    (hm : env.bodyPresent = false ∨ ∃ d, env.marshal = .ok d)
    (hr : env.newRequest = .ok ()) :
    (doRequestOnce statusText token requireAuth env).authAttached =
      (requireAuth && token != "") := by
  cases hbp : env.bodyPresent
  · cases hms : env.marshal
    · simp only [doRequestOnce, hbp, hms, hr]
      repeat' split
      all_goals simp
    · simp only [doRequestOnce, hbp, hms, hr]
      repeat' split
      all_goals simp
  · obtain ⟨d, hms⟩ : ∃ d, env.marshal = .ok d := by
      rcases hm with h | h
      · rw [hbp] at h
        cases h
      · exact h
    simp only [doRequestOnce, hbp, hms, hr]
    repeat' split
    all_goals simp

/-- Helper for C8: a call flagged requireAuth = false never attaches the
credential, whatever the transport does. -/
theorem doRequestOnce_noauth (statusText : Nat → String) (token : String)
    (env : TransportEnv) :
    (doRequestOnce statusText token false env).authAttached = false := by
  unfold doRequestOnce
  repeat' split
  all_goals simp

/-- C8: once the session credential is set by login to a non-empty token,
every transport call flagged requireAuth = true that gets built attaches
the bearer credential; every call flagged requireAuth = false attaches
nothing, on any transport behaviour. -/
theorem doRequestOnce_auth_invariant
    (statusText : Nat → String) (c : Client) (auth : AuthDto)
    (env env2 : TransportEnv) (token2 : String)
    (htok : auth.accessToken ≠ "")
    (hm : env.bodyPresent = false ∨ ∃ d, env.marshal = .ok d)
    (hr : env.newRequest = .ok ()) :
    (doRequestOnce statusText (loginSetToken c auth).token true env).authAttached = true ∧
    (doRequestOnce statusText token2 false env2).authAttached = false := by
  constructor
  · rw [doRequestOnce_authAttached statusText (loginSetToken c auth).token true env hm hr]
    simp [loginSetToken, htok]
  · exact doRequestOnce_noauth statusText token2 env2

/-- Witness for C8 at a concrete input: after a login that stored the token
`tok`, an authenticated 500-status call attaches the header, and the login
call shape itself (requireAuth = false) does not. -/
theorem doRequestOnce_auth_invariant_witness :
    (doRequestOnce sampleStatusText (loginSetToken NewClient ⟨"tok"⟩).token true
        tenv500Empty).authAttached = true ∧
    (doRequestOnce sampleStatusText "tok" false tenv200Ok).authAttached = false :=
  doRequestOnce_auth_invariant sampleStatusText NewClient ⟨"tok"⟩ tenv500Empty tenv200Ok
    "tok" (by decide) (Or.inl rfl) rfl

/-- Helper for C9: the retry loop, from any state, produces one of the
four enumerated outcome shapes, with the exhaustion wrapper always
reporting maxRetries + 1 attempts. -/
theorem doRequestAux_result_classified (env : RetryEnv) (maxRetries : Int) :
    ∀ (fuel attempt : Nat) (lastErr : Option APIError) (a d : Nat),
      (doRequestAux env maxRetries fuel attempt lastErr a d).result = .ok () ∨
      (∃ e, (doRequestAux env maxRetries fuel attempt lastErr a d).result =
        .error (.api e)) ∨
      (doRequestAux env maxRetries fuel attempt lastErr a d).result = .error .cancelled ∨
      ∃ le, (doRequestAux env maxRetries fuel attempt lastErr a d).result =
        .error (.failedAfter (maxRetries + 1) le) := by
  intro fuel
  induction fuel with
  | zero =>
      intro attempt lastErr a d
      right; right; right
      exact ⟨lastErr, rfl⟩
  | succ f ih =>
      intro attempt lastErr a d
      by_cases hcw : 0 < attempt ∧ env.cancelInWait attempt = true
      · right; right; left
        simp [doRequestAux, hcw]
      · cases hres : env.attemptResult attempt with
        | none =>
            left
            simp [doRequestAux, hcw, hres]
        | some e =>
            by_cases hnr : isNonRetryableError e = true
            · right; left
              exact ⟨e, by simp [doRequestAux, hcw, hres, hnr]⟩
            · by_cases hca : env.cancelledAfter attempt = true
              · right; right; left
                simp [doRequestAux, hcw, hres, hnr, hca]
              · have hx := ih (attempt + 1) (some e) (a + 1) (if 0 < attempt then d + 1 else d)
                simpa [doRequestAux, hcw, hres, hnr, hca] using hx

/-- C9: with attempt outcomes produced by the transport executor (each a
typed APIError or success, by the return type of `doRequestOnce`), every
run of the retry coordinator ends in exactly one of: success, a classified
APIError, the cancellation condition, or the exhaustion wrapper reporting
maxRetries + 1 attempts — never a bare unclassified failure. -/
theorem doRequest_outcomes_classified
    (statusText : Nat → String) (token : String) (requireAuth : Bool)
    (tenvs : Nat → TransportEnv) (cw ca : Nat → Bool) (maxRetries : Int) :
    (doRequest (retryEnvOf statusText token requireAuth tenvs cw ca) maxRetries).result =
        .ok () ∨
    (∃ e, (doRequest (retryEnvOf statusText token requireAuth tenvs cw ca)
        maxRetries).result = .error (.api e)) ∨
    (doRequest (retryEnvOf statusText token requireAuth tenvs cw ca) maxRetries).result =
        .error .cancelled ∨
    ∃ le, (doRequest (retryEnvOf statusText token requireAuth tenvs cw ca)
        maxRetries).result = .error (.failedAfter (maxRetries + 1) le) :=
  doRequestAux_result_classified (retryEnvOf statusText token requireAuth tenvs cw ca)
    maxRetries ((maxRetries + 1).toNat) 0 none 0 0

/-- Helper: the NOT_FOUND and IN_PROGRESS statuses are not terminal, so
they keep the poll loop running. -/
theorem isTerminalTaskStatus_polling (s : String)
    (h : s = TaskStatusNotFound ∨ s = TaskStatusInProgress) :
    isTerminalTaskStatus s = false := by
  rcases h with h | h <;> subst h <;> decide

/-- Helper: k consecutive ticks that observe no cancellation, lie within
the deadline, and fetch a non-terminal snapshot, advance the poll loop k
ticks. -/
theorem waitAux_reach (env : PollEnv) (timeout : Nat) :
    ∀ (k fuel n : Nat),
      (∀ j, j < k → env.cancelled (n + j) = false) →
      (∀ j, j < k → 2 * (n + j) ≤ timeout) →
      (∀ j, j < k → ∃ t, env.fetch (n + j) = .ok t ∧
          isTerminalTaskStatus t.taskStatus = false) →
      k ≤ fuel →
      waitAux env timeout fuel n = waitAux env timeout (fuel - k) (n + k) := by
  intro k
  induction k with
  | zero =>
      intro fuel n _ _ _ _
      simp
  | succ k ih =>
      intro fuel n hcan hdl hft hfuel
      obtain ⟨f, rfl⟩ : ∃ f, fuel = f + 1 := ⟨fuel - 1, by omega⟩
      have hc0 : env.cancelled n = false := by
        have hx := hcan 0 (by omega)
        rwa [Nat.add_zero] at hx
      have hd0 : ¬ timeout < 2 * n := by
        have hx := hdl 0 (by omega)
        rw [Nat.add_zero] at hx
        omega
      obtain ⟨t, hf0, hterm⟩ := hft 0 (by omega)
      rw [Nat.add_zero] at hf0
      simp only [waitAux, hc0, Bool.false_eq_true, if_false, hd0, hf0, hterm]
      rw [ih f (n + 1)
            (by intro j hj
                have hx := hcan (j + 1) (by omega)
                have he : n + (j + 1) = n + 1 + j := by omega
                rwa [he] at hx)
            (by intro j hj
                have hx := hdl (j + 1) (by omega)
                have he : n + (j + 1) = n + 1 + j := by omega
                rwa [he] at hx)
            (by intro j hj
                have hx := hft (j + 1) (by omega)
                have he : n + (j + 1) = n + 1 + j := by omega
                rwa [he] at hx)
            (by omega)]
      have e1 : f - k = f + 1 - (k + 1) := by omega
      have e2 : n + 1 + k = n + (k + 1) := by omega
      rw [e1, e2]

/-- C4: the poller keeps polling while fetched snapshots report NOT_FOUND
or IN_PROGRESS, and returns the fetched snapshot at the first tick whose
snapshot status is terminal (COMPLETED, OUTPUT_RECEIVED or FAILED),
provided that tick is within the deadline and cancellation never fires;
the elapsed time is that tick's boundary, so no timeout occurs. -/
theorem waitForTaskCompletion_terminal
    (env : PollEnv) (timeout n : Nat) (t : TaskDetailDto)
    (hn : 1 ≤ n)
    (hpoll : ∀ m, 1 ≤ m → m < n → ∃ u, env.fetch m = .ok u ∧
        (u.taskStatus = TaskStatusNotFound ∨ u.taskStatus = TaskStatusInProgress))
    (hterm : env.fetch n = .ok t)
    (hstatus : isTerminalTaskStatus t.taskStatus = true)
    (hcancel : ∀ m, env.cancelled m = false)
    (htime : 2 * n ≤ timeout) :
    WaitForTaskCompletion env timeout = some (.finished t, 2 * n) := by
  unfold WaitForTaskCompletion
  rw [waitAux_reach env timeout (n - 1) (timeout / 2 + 2) 1
        (fun j _ => hcancel (1 + j))
        (fun j hj => by omega)
        (fun j hj => by
          obtain ⟨u, hu, hs⟩ := hpoll (1 + j) (by omega) (by omega)
          exact ⟨u, hu, isTerminalTaskStatus_polling u.taskStatus hs⟩)
        (by omega)]
  have h1 : 1 + (n - 1) = n := by omega
  rw [h1]
  obtain ⟨f, hf⟩ : ∃ f, timeout / 2 + 2 - (n - 1) = f + 1 :=
    ⟨timeout / 2 + 2 - (n - 1) - 1, by omega⟩
  rw [hf]
  have hd : ¬ timeout < 2 * n := by omega
  simp [waitAux, hcancel n, hd, hterm, hstatus]

/-- Witness for C4 at the spec scenario: fetches IN_PROGRESS, IN_PROGRESS,
COMPLETED at a 2-unit tick with timeout 10 return the COMPLETED snapshot
at the third tick (6 time units), with no timeout. -/
theorem waitForTaskCompletion_terminal_witness :
    WaitForTaskCompletion pollScenarioEnv 10 =
      some (.finished ⟨"t1", "shell whoami", TaskStatusCompleted⟩, 6) := by
  have h := waitForTaskCompletion_terminal pollScenarioEnv 10 3
    ⟨"t1", "shell whoami", TaskStatusCompleted⟩ (by omega)
    (by intro m h1 h2
        exact ⟨⟨"t1", "shell whoami", TaskStatusInProgress⟩,
          by simp [pollScenarioEnv, h2], Or.inr rfl⟩)
    (by simp [pollScenarioEnv]) (by decide) (fun _ => rfl) (by omega)
  simpa using h

/-- C5: if every fetch within the deadline returns a non-terminal snapshot
and cancellation never fires, the poller returns the timeout error at the
first tick boundary strictly past the deadline: the elapsed time
2 * (timeout / 2 + 1) is at least the timeout and exceeds it by at most
one tick interval (2 units). -/
theorem waitForTaskCompletion_timeout
    (env : PollEnv) (timeout : Nat)
    (hpoll : ∀ m, 1 ≤ m → 2 * m ≤ timeout → ∃ u, env.fetch m = .ok u ∧
        isTerminalTaskStatus u.taskStatus = false)
    (hcancel : ∀ m, env.cancelled m = false) :
    WaitForTaskCompletion env timeout = some (.timedOut, 2 * (timeout / 2 + 1)) ∧
    timeout ≤ 2 * (timeout / 2 + 1) ∧
    2 * (timeout / 2 + 1) ≤ timeout + 2 := by
  refine ⟨?_, by omega, by omega⟩
  unfold WaitForTaskCompletion
  rw [waitAux_reach env timeout (timeout / 2) (timeout / 2 + 2) 1
        (fun j _ => hcancel (1 + j))
        (fun j hj => by omega)
        (fun j hj => hpoll (1 + j) (by omega) (by omega))
        (by omega)]
  have h1 : timeout / 2 + 2 - timeout / 2 = 2 := by omega
  have h2 : 1 + timeout / 2 = timeout / 2 + 1 := by omega
  rw [h1, h2]
  have hd : timeout < 2 * (timeout / 2 + 1) := by omega
  simp [waitAux, hcancel, hd]

/-- Witness for C5 at the spec scenario: a never-terminal fetch with
timeout 5 and 2-unit tick returns the timeout error at 6 elapsed units,
between 5 and 7. -/
theorem waitForTaskCompletion_timeout_witness :
    WaitForTaskCompletion pollNeverDoneEnv 5 = some (.timedOut, 6) ∧ 5 ≤ 6 ∧ 6 ≤ 7 := by
  have h := waitForTaskCompletion_timeout pollNeverDoneEnv 5
    (by intro m h1 h2
        exact ⟨⟨"t1", "shell whoami", TaskStatusInProgress⟩, rfl, by decide⟩)
    (fun _ => rfl)
  simpa using h

/-- Witness for C10 at a concrete input: maxRetries set to -1 yields zero
attempts and the exhaustion wrapper reporting 0 attempts over a nil cause. -/
theorem doRequest_negative_max_retries_witness :
    doRequest envAllFail (SetRetryPolicy NewClient (-1) 2).maxRetries =
      ⟨.error (.failedAfter 0 none), 0, 0⟩ := by
  have h := doRequest_negative_max_retries NewClient 2 (-1) envAllFail (by norm_num)
  simpa using h

end CsRest
